import Mathlib

/-!
# Whole-file snappy harness: `compress_snappy.cpp` and `decompress_snappy.cpp`

A shallow embedding of the two `main` functions.  Everything the programs
touch outside their own text is made explicit:

* the codec (`snappy::Compress`, `snappy::Uncompress`) is a parameter;
* the file system is a state (`FileSystem`) with the three stream operations
  the programs use: `std::ifstream` open-and-slurp, `std::ofstream` open
  (create or truncate) and `write` (which may be cut short by the device);
* `std::cout` is an `OStream` carrying the `floatfield` flag and the
  precision, so that every `<<` of a `double` is formatted by the flags in
  force at that point of the program;
* the two clock readings enter as the measured duration in seconds.

Modelling conventions:

* a `double` is modelled by the rational number it denotes; the one division
  of the programs is `fdiv`, the exact quotient rounded to the nearest
  binary64 value, and printing rounds the value held to the digits shown; a
  `size_t` is taken over without loss, as it is below `2^53`;
* a stream is the list of its lines, one entry per `... << std::endl`;
* reading is all or nothing: an input stream that opens delivers the whole
  file;
* `argv` is the list of all arguments, program name first, `argc` its length.
  For an empty vector `argv[0]` is a null pointer in C++; no statement below
  is about that case.
-/

namespace Snappy

/-! ## Bytes and the external codec -/

abbrev Byte := Fin 256

abbrev Bytes := List Byte

/-- The external collaborator `<snappy.h>`: `Compress` always produces an
output string, `Uncompress` returns `false` (here `none`) on input that is not
a valid encoding. -/
structure Codec where
  Compress : Bytes → Bytes
  Uncompress : Bytes → Option Bytes

/-! ## File system -/

/-- File system state as seen by the two programs.  `content p` is the data of
the file named `p` (`none`: no such file), `readable p` whether an
`std::ifstream` on `p` opens, `writable p` whether an `std::ofstream` on `p`
opens, `room p` how many bytes a write to `p` can place before the device
refuses more. -/
structure FileSystem where
  content : String → Option Bytes
  readable : String → Bool
  writable : String → Bool
  room : String → Nat

namespace FileSystem

/-- Constructor `std::ifstream f(p, std::ios::binary)` followed by
`buffer << f.rdbuf()`: the whole content, or `none` when the stream is not
open. -/
def openIn (fs : FileSystem) (p : String) : Option Bytes :=
  if fs.readable p then fs.content p else none

/-- Replace the data of one file. -/
def store (fs : FileSystem) (p : String) (data : Bytes) : FileSystem :=
  { fs with content := fun q => if q = p then some data else fs.content q }

/-- Constructor `std::ofstream f(p, std::ios::binary)`: on success the file
exists and is empty. -/
def openOut (fs : FileSystem) (p : String) : Option FileSystem :=
  if fs.writable p then some (fs.store p []) else none

/-- Member `f.write(data, size)` on a freshly opened output stream followed by
`f.close()`: the bytes the device takes are in the file; the flag tells
whether all of them were taken (the stream state after the write). -/
def write (fs : FileSystem) (p : String) (data : Bytes) : FileSystem × Bool :=
  (fs.store p (data.take (fs.room p)), decide (data.length ≤ fs.room p))

end FileSystem

/-- Observable steps of a run, in program order. -/
inductive Event where
  | openInput (path : String) (ok : Bool)
  | readAll (path : String) (size : Nat)
  | closeInput (path : String)
  | codecCompress (size : Nat)
  | codecUncompress (size : Nat) (ok : Bool)
  | openOutput (path : String) (ok : Bool)
  | writeOutput (path : String) (size : Nat) (complete : Bool)
  | closeOutput (path : String)
  deriving DecidableEq, Repr

/-- Whether a step is a call into the codec. -/
def Event.isCodecCall : Event → Bool
  | .codecCompress _ => true
  | .codecUncompress _ _ => true
  | _ => false

/-- Whether a step opens, writes or closes the given path as output. -/
def Event.touchesOutput (p : String) : Event → Bool
  | .openOutput q _ => q == p
  | .writeOutput q _ _ => q == p
  | .closeOutput q => q == p
  | _ => false

/-! ## Formatting of `double` by `std::ostream` -/

/-- Nearest integer to `a / b`, ties to even (`b > 0`). -/
def roundHalfEven (a b : Nat) : Nat :=
  let q := a / b
  let r := a % b
  if 2 * r < b then q else if b < 2 * r then q + 1 else if q % 2 = 0 then q else q + 1

/-- Left-pad a digit string with zeros to the given width. -/
def zeroPad (width : Nat) (s : List Char) : List Char :=
  List.replicate (width - s.length) '0' ++ s

/-- Conversion `%.pf` of the non-negative value `a / b`. -/
def fixedDigits (p a b : Nat) : List Char :=
  let s := roundHalfEven (a * 10 ^ p) b
  let ip := Nat.toDigits 10 (s / 10 ^ p)
  if p = 0 then ip else ip ++ '.' :: zeroPad p (Nat.toDigits 10 (s % 10 ^ p))

/-- Search for the least `k` from the start value with `b ≤ a * 10 ^ k`. -/
def leadShift : Nat → Nat → Nat → Nat → Nat
  | 0, _, _, k => k
  | fuel + 1, a, b, k => if b ≤ a * 10 ^ k then k else leadShift fuel a b (k + 1)

/-- Decimal exponent of `a / b` (`a, b > 0`): the `e` with
`10 ^ e ≤ a / b < 10 ^ (e + 1)`. -/
def decExponent (a b : Nat) : Int :=
  if b ≤ a then (((Nat.toDigits 10 (a / b)).length - 1 : Nat) : Int)
  else - ((leadShift (Nat.toDigits 10 b).length a b 1 : Nat) : Int)

/-- Drop the trailing zeros of a fractional part, and the point when nothing
is left behind it. -/
def stripFraction (s : List Char) : List Char :=
  if s.contains '.' then
    let t := (s.reverse.dropWhile (fun c => c == '0')).reverse
    if t.getLast? = some '.' then t.dropLast else t
  else s

/-- Exponent part of style `e`: sign and at least two digits. -/
def expDigits (x : Int) : List Char :=
  (if x < 0 then '-' else '+') :: zeroPad 2 (Nat.toDigits 10 x.natAbs)

/-- Conversion `%.Pg` of the non-negative value `a / b`: with `X` the decimal
exponent after rounding to `P` significant digits, style `f` with `P - 1 - X`
decimals when `-4 ≤ X < P`, style `e` with `P - 1` decimals otherwise, trailing
zeros removed in both. -/
def generalDigits (p0 a b : Nat) : List Char :=
  let p := if p0 = 0 then 1 else p0
  if a = 0 then ['0'] else
  let e0 := decExponent a b
  let k : Int := ((p - 1 : Nat) : Int) - e0
  let m0 := if 0 ≤ k then roundHalfEven (a * 10 ^ k.toNat) b
            else roundHalfEven a (b * 10 ^ (-k).toNat)
  let x := if m0 = 10 ^ p then e0 + 1 else e0
  let m := if m0 = 10 ^ p then 10 ^ (p - 1) else m0
  if -4 ≤ x ∧ x < (p : Int) then
    stripFraction (fixedDigits ((p : Int) - 1 - x).toNat a b)
  else
    let ds := Nat.toDigits 10 m
    let mant := if p = 1 then ds else stripFraction (ds.take 1 ++ '.' :: ds.drop 1)
    mant ++ 'e' :: expDigits x

/-- Sign written in front of a negative value. -/
def signChars (x : ℚ) : List Char := if x < 0 then ['-'] else []

/-- Output of a `double` with `std::fixed` and precision `p`. -/
def fmtFixed (p : Nat) (x : ℚ) : String :=
  String.mk (signChars x ++ fixedDigits p x.num.natAbs x.den)

/-- Output of a `double` with `floatfield` unset and precision `p`. -/
def fmtGeneral (p : Nat) (x : ℚ) : String :=
  String.mk (signChars x ++ generalDigits p x.num.natAbs x.den)

/-- The part of the state of `std::cout` the programs use. -/
structure OStream where
  fixed : Bool
  precision : Nat
  lines : List String

/-- State of `std::cout` at program start: `floatfield` unset, precision 6. -/
def OStream.initial : OStream := ⟨false, 6, []⟩

/-- Text produced by `os << x` for a `double`. -/
def OStream.showDouble (os : OStream) (x : ℚ) : String :=
  if os.fixed then fmtFixed os.precision x else fmtGeneral os.precision x

/-- Manipulator `std::fixed`. -/
def OStream.setFixed (os : OStream) : OStream := { os with fixed := true }

/-- Manipulator `std::setprecision(n)`. -/
def OStream.setprecision (os : OStream) (n : Nat) : OStream := { os with precision := n }

/-- Finish a line: the text inserted since the last `std::endl`, then `std::endl`. -/
def OStream.endl (os : OStream) (text : String) : OStream :=
  { os with lines := os.lines ++ [text] }

/-! ## The two programs -/

/-- Result of a run: exit code, the lines on standard output and on the error
stream, the file system afterwards, and the steps taken. -/
structure Outcome where
  exitCode : Nat
  cout : List String
  cerr : List String
  fs : FileSystem
  trace : List Event

/-- Search for the least `k` from the start value with `b ≤ a * 2 ^ k`. -/
def binShift : Nat → Nat → Nat → Nat → Nat
  | 0, _, _, k => k
  | fuel + 1, a, b, k => if b ≤ a * 2 ^ k then k else binShift fuel a b (k + 1)

/-- Binary exponent of `a / b` (`a, b > 0`): the `e` with
`2 ^ e ≤ a / b < 2 ^ (e + 1)`. -/
def binExponent (a b : Nat) : Int :=
  if b ≤ a then (((Nat.toDigits 2 (a / b)).length - 1 : Nat) : Int)
  else - ((binShift (Nat.toDigits 2 b).length a b 1 : Nat) : Int)

/-- The binary64 value nearest to `a / b`, ties to even, with the given sign:
a 53-bit significand `m` scaled by a power of two.  The exponent range of the
format is not modelled (quotients of two byte counts lie between `2 ^ (-64)`
and `2 ^ 64`). -/
def binary64 (neg : Bool) (a b : Nat) : ℚ :=
  if a = 0 ∨ b = 0 then 0 else
  let e := binExponent a b
  let k : Int := 52 - e
  let m := if 0 ≤ k then roundHalfEven (a * 2 ^ k.toNat) b
           else roundHalfEven a (b * 2 ^ (-k).toNat)
  let n : Int := if neg then -(m : Int) else (m : Int)
  if 0 ≤ k then mkRat n (2 ^ k.toNat) else mkRat (n * 2 ^ (-k).toNat) 1

/-- Operator `/` on two `double` values: the exact quotient rounded to
binary64.  (A zero divisor is never passed by the programs.) -/
def fdiv (x y : ℚ) : ℚ :=
  binary64 (decide (x < 0) != decide (y < 0))
    (x.num.natAbs * y.den) (x.den * y.num.natAbs)

/-- The expression `(compressed_size > 0) ? (original_size / compressed_size) : 1.0`. -/
def ratioOf (original_size compressed_size : ℚ) : ℚ :=
  if compressed_size > 0 then fdiv original_size compressed_size else 1

namespace compress_snappy

/-- Function `main` of `compress_snappy.cpp`.  `duration_s` is the value of
`end_time - start_time` in seconds. -/
def main (codec : Codec) (duration_s : ℚ) (fs : FileSystem) (argv : List String) : Outcome :=
  let argc := argv.length
  if argc ≠ 3 then
    { exitCode := 1
      cout := []
      cerr := ["Usage: " ++ argv.getD 0 "" ++ " <input_file> <output_file>"]
      fs := fs
      trace := [] }
  else
    let input_filename := argv.getD 1 ""
    let output_filename := argv.getD 2 ""
    -- 1. Read the whole input file into a string
    match fs.openIn input_filename with
    | none =>
      { exitCode := 1
        cout := []
        cerr := ["Error: Cannot open input file: " ++ input_filename]
        fs := fs
        trace := [.openInput input_filename false] }
    | some original_data =>
      -- 2. Compress the data
      let compressed_data := codec.Compress original_data
      let steps : List Event :=
        [.openInput input_filename true, .readAll input_filename original_data.length,
         .closeInput input_filename, .codecCompress original_data.length]
      -- 3. Write the compressed data to the output file
      match fs.openOut output_filename with
      | none =>
        { exitCode := 1
          cout := []
          cerr := ["Error: Cannot open output file: " ++ output_filename]
          fs := fs
          trace := steps ++ [.openOutput output_filename false] }
      | some fs1 =>
        let written := fs1.write output_filename compressed_data
        -- 4. Calculate compression ratio
        let original_size : ℚ := (original_data.length : ℚ)
        let compressed_size : ℚ := (compressed_data.length : ℚ)
        let ratio := ratioOf original_size compressed_size
        -- 6. Print the message
        let cout := OStream.initial
        let cout := cout.endl ("Successfully compressed " ++ input_filename)
        let cout := cout.endl ("Original Size:    " ++ cout.showDouble original_size ++ " bytes")
        let cout := cout.endl ("Compressed Size:  " ++ cout.showDouble compressed_size ++ " bytes")
        let cout := cout.setFixed
        let cout := cout.setprecision 6
        let cout := cout.endl ("Time Taken:         " ++ cout.showDouble duration_s ++ " s")
        let cout := cout.setprecision 2
        let cout := cout.endl ("Compression Ratio:  " ++ cout.showDouble ratio ++ ":1")
        { exitCode := 0
          cout := cout.lines
          cerr := []
          fs := written.1
          trace := steps ++
            [.openOutput output_filename true,
             .writeOutput output_filename compressed_data.length written.2,
             .closeOutput output_filename] }

end compress_snappy

namespace decompress_snappy

/-- Function `main` of `decompress_snappy.cpp`.  `duration_s` is the value of
`end_time - start_time` in seconds. -/
def main (codec : Codec) (duration_s : ℚ) (fs : FileSystem) (argv : List String) : Outcome :=
  let argc := argv.length
  if argc ≠ 3 then
    { exitCode := 1
      cout := []
      cerr := ["Usage: " ++ argv.getD 0 "" ++ " <input_compressed_file> <output_restored_file>"]
      fs := fs
      trace := [] }
  else
    let input_filename := argv.getD 1 ""
    let output_filename := argv.getD 2 ""
    -- 1. Read the compressed file
    match fs.openIn input_filename with
    | none =>
      { exitCode := 1
        cout := []
        cerr := ["Error: Cannot open input file: " ++ input_filename]
        fs := fs
        trace := [.openInput input_filename false] }
    | some compressed_data =>
      let steps : List Event :=
        [.openInput input_filename true, .readAll input_filename compressed_data.length,
         .closeInput input_filename]
      -- 2. Decompress the data
      match codec.Uncompress compressed_data with
      | none =>
        { exitCode := 1
          cout := []
          cerr := ["Error: Failed to decompress data. File might be corrupt."]
          fs := fs
          trace := steps ++ [.codecUncompress compressed_data.length false] }
      | some uncompressed_data =>
        let steps := steps ++ [.codecUncompress compressed_data.length true]
        -- 3. Write the original data to the output file
        match fs.openOut output_filename with
        | none =>
          { exitCode := 1
            cout := []
            cerr := ["Error: Cannot open output file: " ++ output_filename]
            fs := fs
            trace := steps ++ [.openOutput output_filename false] }
        | some fs1 =>
          let written := fs1.write output_filename uncompressed_data
          -- 4. Calculate sizes and ratio
          let original_size : ℚ := (uncompressed_data.length : ℚ)
          let compressed_size : ℚ := (compressed_data.length : ℚ)
          let ratio := ratioOf original_size compressed_size
          -- 6. Print the message
          let cout := OStream.initial
          let cout := cout.endl ("Successfully decompressed " ++ input_filename)
          let cout := cout.endl ("Compressed Size:  " ++ cout.showDouble compressed_size ++ " bytes")
          let cout := cout.endl ("Original Size:    " ++ cout.showDouble original_size ++ " bytes")
          let cout := cout.setFixed
          let cout := cout.setprecision 6
          let cout := cout.endl ("Time Taken:         " ++ cout.showDouble duration_s ++ " s")
          let cout := cout.setprecision 2
          let cout := cout.endl ("Compression Ratio:  " ++ cout.showDouble ratio ++ ":1")
          { exitCode := 0
            cout := cout.lines
            cerr := []
            fs := written.1
            trace := steps ++
              [.openOutput output_filename true,
               .writeOutput output_filename uncompressed_data.length written.2,
               .closeOutput output_filename] }

end decompress_snappy

/-! ## Concrete inputs used in the examples -/

/-- A codec that stores data unchanged and accepts everything. -/
def storeCodec : Codec := ⟨fun b => b, fun b => some b⟩

/-- A codec that puts a marker byte in front and accepts only data carrying it. -/
def tagCodec : Codec :=
  ⟨fun b => (7 : Byte) :: b,
   fun b => match b with
     | [] => none
     | t :: rest => if t = 7 then some rest else none⟩

/-- A codec whose encoding of everything is empty and which decodes the empty
string only. -/
def nullCodec : Codec :=
  ⟨fun _ => [],
   fun b => match b with
     | [] => some []
     | _ :: _ => none⟩

/-- A file system with three files: `in` holding three bytes, `enc` holding
the `tagCodec` encoding of them, and `empty` holding nothing; every path
opens, and every device has room for sixteen bytes. -/
def demoFS : FileSystem :=
  { content := fun p =>
      if p = "in" then some [1, 2, 3]
      else if p = "enc" then some [7, 1, 2, 3]
      else if p = "empty" then some []
      else none
    readable := fun _ => true
    writable := fun _ => true
    room := fun _ => 16 }

/-- As `demoFS`, but the device behind `out` is full. -/
def fullFS : FileSystem := { demoFS with room := fun p => if p = "out" then 0 else 16 }

/-- One million zero bytes. -/
def millionZeros : Bytes := List.replicate 1000000 0

/-- As `demoFS`, but the file `in` holds one million zero bytes. -/
def bigFS : FileSystem :=
  { demoFS with content := fun p => if p = "in" then some millionZeros else none }

/-- As `demoFS`, but the device behind `out` takes two bytes only. -/
def tightFS : FileSystem := { demoFS with room := fun p => if p = "out" then 2 else 16 }

/-- As `demoFS`, with a further file `f39` of thirty-nine zero bytes. -/
def oddFS : FileSystem :=
  { demoFS with content := fun p =>
      if p = "f39" then some (List.replicate 39 0) else demoFS.content p }

/-- As `demoFS`, but `out` cannot be opened for writing. -/
def lockedFS : FileSystem := { demoFS with writable := fun p => !(p == "out") }

/-! ## Stream operations -/

theorem openOut_of_writable (fs : FileSystem) (p : String) (h : fs.writable p = true) :
    fs.openOut p = some (fs.store p []) := by
  simp [FileSystem.openOut, h]

theorem openOut_of_locked (fs : FileSystem) (p : String) (h : fs.writable p = false) :
    fs.openOut p = none := by
  simp [FileSystem.openOut, h]

theorem openOut_eq_none_iff (fs : FileSystem) (p : String) :
    fs.openOut p = none ↔ fs.writable p = false := by
  cases h : fs.writable p <;> simp [FileSystem.openOut, h]

theorem write_content_self (fs : FileSystem) (p : String) (data : Bytes) :
    (fs.write p data).1.content p = some (data.take (fs.room p)) := by
  simp [FileSystem.write, FileSystem.store]

theorem write_content_other (fs : FileSystem) (p q : String) (data : Bytes) (h : q ≠ p) :
    (fs.write p data).1.content q = fs.content q := by
  simp [FileSystem.write, FileSystem.store, h]

theorem store_content_other (fs : FileSystem) (p q : String) (data : Bytes) (h : q ≠ p) :
    (fs.store p data).content q = fs.content q := by
  simp [FileSystem.store, h]

/-- C1, counterexample. The codec restores `[1, 2, 3]` from its encoding, the
file `in` holds `[1, 2, 3]`, and every file opens; the device behind `out`
takes two of the four encoded bytes. Both commands return 0 and the restored
file holds `[1]`. -/
theorem round_trip_short_write :
    tagCodec.Uncompress (tagCodec.Compress [1, 2, 3]) = some [1, 2, 3] ∧
    tightFS.openIn "in" = some [1, 2, 3] ∧
    (compress_snappy.main tagCodec 0 tightFS ["compress", "in", "out"]).exitCode = 0 ∧
    (decompress_snappy.main tagCodec 0
      (compress_snappy.main tagCodec 0 tightFS ["compress", "in", "out"]).fs
      ["decompress", "out", "back"]).exitCode = 0 ∧
    (decompress_snappy.main tagCodec 0
      (compress_snappy.main tagCodec 0 tightFS ["compress", "in", "out"]).fs
      ["decompress", "out", "back"]).fs.content "back" = some [1] ∧
    (decompress_snappy.main tagCodec 0
      (compress_snappy.main tagCodec 0 tightFS ["compress", "in", "out"]).fs
      ["decompress", "out", "back"]).fs.content "back" ≠ some [1, 2, 3] := by
  decide

/-- C1, amended. Round trip at pipeline level: with a codec that restores `X`
from its own encoding of `X`, the compress command on a file holding `X`
followed by the decompress command on the file it wrote returns 0 twice and
leaves `X` in the restored file, provided the three files open and neither
write is cut short (the paths may coincide). -/
theorem round_trip_pipeline (codec : Codec) (X : Bytes) (fs : FileSystem) (t₁ t₂ : ℚ)
    (prog₁ prog₂ src mid dst : String)
    (hcodec : codec.Uncompress (codec.Compress X) = some X)
    (hsrc : fs.openIn src = some X)
    (hmidW : fs.writable mid = true) (hmidR : fs.readable mid = true)
    (hmidRoom : (codec.Compress X).length ≤ fs.room mid)
    (hdstW : fs.writable dst = true) (hdstRoom : X.length ≤ fs.room dst) :
    (compress_snappy.main codec t₁ fs [prog₁, src, mid]).exitCode = 0 ∧
    (decompress_snappy.main codec t₂
      (compress_snappy.main codec t₁ fs [prog₁, src, mid]).fs [prog₂, mid, dst]).exitCode = 0 ∧
    (decompress_snappy.main codec t₂
      (compress_snappy.main codec t₁ fs [prog₁, src, mid]).fs [prog₂, mid, dst]).fs.content dst
        = some X := by
  have hfs1 : (compress_snappy.main codec t₁ fs [prog₁, src, mid]).fs
      = ((fs.store mid []).write mid (codec.Compress X)).1 := by
    simp [compress_snappy.main, hsrc, openOut_of_writable fs mid hmidW]
  have hexit1 : (compress_snappy.main codec t₁ fs [prog₁, src, mid]).exitCode = 0 := by
    simp [compress_snappy.main, hsrc, openOut_of_writable fs mid hmidW]
  have hread : ((fs.store mid []).write mid (codec.Compress X)).1.openIn mid
      = some (codec.Compress X) := by
    simp [FileSystem.openIn, FileSystem.write, FileSystem.store, hmidR,
      List.take_of_length_le hmidRoom]
  have hw : ((fs.store mid []).write mid (codec.Compress X)).1.writable dst = true := by
    simpa [FileSystem.write, FileSystem.store] using hdstW
  refine ⟨hexit1, ?_, ?_⟩
  · rw [hfs1]
    simp [decompress_snappy.main, hread, hcodec, openOut_of_writable _ dst hw]
  · rw [hfs1]
    simp [decompress_snappy.main, hread, hcodec, openOut_of_writable _ dst hw]
    simp [FileSystem.write, FileSystem.store, List.take_of_length_le hdstRoom]

theorem round_trip_pipeline_witness :
    (compress_snappy.main tagCodec 0 demoFS ["compress", "in", "mid"]).exitCode = 0 ∧
    (decompress_snappy.main tagCodec 0
      (compress_snappy.main tagCodec 0 demoFS ["compress", "in", "mid"]).fs
      ["decompress", "mid", "in"]).exitCode = 0 ∧
    (decompress_snappy.main tagCodec 0
      (compress_snappy.main tagCodec 0 demoFS ["compress", "in", "mid"]).fs
      ["decompress", "mid", "in"]).fs.content "in" = some [1, 2, 3] :=
  round_trip_pipeline tagCodec [1, 2, 3] demoFS 0 0 "compress" "decompress" "in" "mid" "in"
    (by decide) (by decide) (by decide) (by decide) (by decide) (by decide) (by decide)

/-- C2. Corruption detection: when the codec rejects the content of the input
file, the decompress command returns 1 with its one diagnostic, prints no
report, takes no step on any output path, and hands back the file system
unchanged. -/
theorem corrupt_input_rejected (codec : Codec) (t : ℚ) (fs : FileSystem)
    (prog inp out : String) (c : Bytes)
    (hin : fs.openIn inp = some c) (hrej : codec.Uncompress c = none) :
    (decompress_snappy.main codec t fs [prog, inp, out]).exitCode = 1 ∧
    (decompress_snappy.main codec t fs [prog, inp, out]).fs = fs ∧
    (∀ e ∈ (decompress_snappy.main codec t fs [prog, inp, out]).trace,
      ∀ p, e.touchesOutput p = false) ∧
    (decompress_snappy.main codec t fs [prog, inp, out]).cerr
      = ["Error: Failed to decompress data. File might be corrupt."] ∧
    (decompress_snappy.main codec t fs [prog, inp, out]).cout = [] := by
  simp [decompress_snappy.main, hin, hrej, Event.touchesOutput]

theorem corrupt_input_rejected_witness :
    (decompress_snappy.main tagCodec 0 demoFS ["decompress", "in", "out"]).exitCode = 1 ∧
    (decompress_snappy.main tagCodec 0 demoFS ["decompress", "in", "out"]).fs = demoFS ∧
    (∀ e ∈ (decompress_snappy.main tagCodec 0 demoFS ["decompress", "in", "out"]).trace,
      ∀ p, e.touchesOutput p = false) ∧
    (decompress_snappy.main tagCodec 0 demoFS ["decompress", "in", "out"]).cerr
      = ["Error: Failed to decompress data. File might be corrupt."] ∧
    (decompress_snappy.main tagCodec 0 demoFS ["decompress", "in", "out"]).cout = [] :=
  corrupt_input_rejected tagCodec 0 demoFS "decompress" "in" "out" [1, 2, 3]
    (by decide) (by decide)

/-- C3. Argument validation: with a number of positional arguments other than
two, either command writes its usage line (program name, then the two
parameter names) to the error stream, returns 1, prints nothing, takes no step
at all and hands back the file system unchanged. -/
theorem wrong_arg_count_usage (codec : Codec) (t : ℚ) (fs : FileSystem)
    (prog : String) (args : List String) (h : args.length ≠ 2) :
    ((compress_snappy.main codec t fs (prog :: args)).exitCode = 1 ∧
     (compress_snappy.main codec t fs (prog :: args)).cerr
       = ["Usage: " ++ prog ++ " <input_file> <output_file>"] ∧
     (compress_snappy.main codec t fs (prog :: args)).cout = [] ∧
     (compress_snappy.main codec t fs (prog :: args)).trace = [] ∧
     (compress_snappy.main codec t fs (prog :: args)).fs = fs) ∧
    ((decompress_snappy.main codec t fs (prog :: args)).exitCode = 1 ∧
     (decompress_snappy.main codec t fs (prog :: args)).cerr
       = ["Usage: " ++ prog ++ " <input_compressed_file> <output_restored_file>"] ∧
     (decompress_snappy.main codec t fs (prog :: args)).cout = [] ∧
     (decompress_snappy.main codec t fs (prog :: args)).trace = [] ∧
     (decompress_snappy.main codec t fs (prog :: args)).fs = fs) := by
  have h3 : ¬ (args.length + 1 = 3) := by omega
  simp [compress_snappy.main, decompress_snappy.main, h3]

theorem wrong_arg_count_usage_witness :
    ((compress_snappy.main tagCodec 0 demoFS ["compress", "in"]).exitCode = 1 ∧
     (compress_snappy.main tagCodec 0 demoFS ["compress", "in"]).cerr
       = ["Usage: " ++ "compress" ++ " <input_file> <output_file>"] ∧
     (compress_snappy.main tagCodec 0 demoFS ["compress", "in"]).cout = [] ∧
     (compress_snappy.main tagCodec 0 demoFS ["compress", "in"]).trace = [] ∧
     (compress_snappy.main tagCodec 0 demoFS ["compress", "in"]).fs = demoFS) ∧
    ((decompress_snappy.main tagCodec 0 demoFS ["compress", "in"]).exitCode = 1 ∧
     (decompress_snappy.main tagCodec 0 demoFS ["compress", "in"]).cerr
       = ["Usage: " ++ "compress" ++ " <input_compressed_file> <output_restored_file>"] ∧
     (decompress_snappy.main tagCodec 0 demoFS ["compress", "in"]).cout = [] ∧
     (decompress_snappy.main tagCodec 0 demoFS ["compress", "in"]).trace = [] ∧
     (decompress_snappy.main tagCodec 0 demoFS ["compress", "in"]).fs = demoFS) :=
  wrong_arg_count_usage tagCodec 0 demoFS "compress" ["in"] (by decide)

/-- C4. Missing input: called with two arguments on an input path that does
not open, either command returns 1, writes the diagnostic ending in that path
to the error stream, prints nothing, makes no call into the codec, takes no
step on any output path and hands back the file system unchanged. -/
theorem missing_input_reported (codec : Codec) (t : ℚ) (fs : FileSystem)
    (prog inp out : String) (h : fs.openIn inp = none) :
    ((compress_snappy.main codec t fs [prog, inp, out]).exitCode = 1 ∧
     (compress_snappy.main codec t fs [prog, inp, out]).cerr
       = ["Error: Cannot open input file: " ++ inp] ∧
     (compress_snappy.main codec t fs [prog, inp, out]).cout = [] ∧
     (∀ e ∈ (compress_snappy.main codec t fs [prog, inp, out]).trace,
       e.isCodecCall = false ∧ ∀ p, e.touchesOutput p = false) ∧
     (compress_snappy.main codec t fs [prog, inp, out]).fs = fs) ∧
    ((decompress_snappy.main codec t fs [prog, inp, out]).exitCode = 1 ∧
     (decompress_snappy.main codec t fs [prog, inp, out]).cerr
       = ["Error: Cannot open input file: " ++ inp] ∧
     (decompress_snappy.main codec t fs [prog, inp, out]).cout = [] ∧
     (∀ e ∈ (decompress_snappy.main codec t fs [prog, inp, out]).trace,
       e.isCodecCall = false ∧ ∀ p, e.touchesOutput p = false) ∧
     (decompress_snappy.main codec t fs [prog, inp, out]).fs = fs) := by
  simp [compress_snappy.main, decompress_snappy.main, h, Event.isCodecCall,
    Event.touchesOutput]

theorem missing_input_reported_witness :
    (compress_snappy.main tagCodec 0 demoFS ["compress", "nowhere", "out"]).cerr
       = ["Error: Cannot open input file: " ++ "nowhere"] ∧
    (decompress_snappy.main tagCodec 0 demoFS ["decompress", "nowhere", "out"]).fs.content "out"
       = none :=
  ⟨(missing_input_reported tagCodec 0 demoFS "compress" "nowhere" "out" (by decide)).1.2.1,
   by
    rw [(missing_input_reported tagCodec 0 demoFS "decompress" "nowhere" "out" (by decide)).2.2.2.2.2]
    decide⟩

/-! ## The report of a successful run -/

theorem compress_success (codec : Codec) (t : ℚ) (fs : FileSystem) (prog inp out : String)
    (c : Bytes) (hin : fs.openIn inp = some c) (hout : fs.writable out = true) :
    (compress_snappy.main codec t fs [prog, inp, out]).exitCode = 0 ∧
    (compress_snappy.main codec t fs [prog, inp, out]).cerr = [] ∧
    (compress_snappy.main codec t fs [prog, inp, out]).fs
      = ((fs.store out []).write out (codec.Compress c)).1 ∧
    (compress_snappy.main codec t fs [prog, inp, out]).cout =
      ["Successfully compressed " ++ inp,
       "Original Size:    " ++ fmtGeneral 6 (c.length : ℚ) ++ " bytes",
       "Compressed Size:  " ++ fmtGeneral 6 ((codec.Compress c).length : ℚ) ++ " bytes",
       "Time Taken:         " ++ fmtFixed 6 t ++ " s",
       "Compression Ratio:  "
         ++ fmtFixed 2 (ratioOf (c.length : ℚ) ((codec.Compress c).length : ℚ)) ++ ":1"] := by
  simp [compress_snappy.main, hin, openOut_of_writable fs out hout, OStream.initial,
    OStream.endl, OStream.showDouble, OStream.setFixed, OStream.setprecision]

theorem decompress_success (codec : Codec) (t : ℚ) (fs : FileSystem) (prog inp out : String)
    (c d : Bytes) (hin : fs.openIn inp = some c) (hacc : codec.Uncompress c = some d)
    (hout : fs.writable out = true) :
    (decompress_snappy.main codec t fs [prog, inp, out]).exitCode = 0 ∧
    (decompress_snappy.main codec t fs [prog, inp, out]).cerr = [] ∧
    (decompress_snappy.main codec t fs [prog, inp, out]).fs
      = ((fs.store out []).write out d).1 ∧
    (decompress_snappy.main codec t fs [prog, inp, out]).cout =
      ["Successfully decompressed " ++ inp,
       "Compressed Size:  " ++ fmtGeneral 6 (c.length : ℚ) ++ " bytes",
       "Original Size:    " ++ fmtGeneral 6 (d.length : ℚ) ++ " bytes",
       "Time Taken:         " ++ fmtFixed 6 t ++ " s",
       "Compression Ratio:  " ++ fmtFixed 2 (ratioOf (d.length : ℚ) (c.length : ℚ)) ++ ":1"] := by
  simp [decompress_snappy.main, hin, hacc, openOut_of_writable fs out hout, OStream.initial,
    OStream.endl, OStream.showDouble, OStream.setFixed, OStream.setprecision]

theorem ratioOf_natCast (o c : Nat) :
    ratioOf (o : ℚ) (c : ℚ) = if 0 < c then fdiv (o : ℚ) (c : ℚ) else 1 := by
  simp [ratioOf]

theorem fmtFixed_two_one : fmtFixed 2 1 = "1.00" := by decide

/-- C5, counterexample. Compressing a file of 39 bytes into 40 bytes prints the
ratio `0.97:1`: the quotient is formed in binary64, where it is not 39/40, and
the exact quotient 0.975 would print as `0.98`. -/
theorem ratio_not_exact_quotient :
    oddFS.openIn "f39" = some (List.replicate 39 0) ∧
    (tagCodec.Compress (List.replicate 39 0)).length = 40 ∧
    (compress_snappy.main tagCodec 0 oddFS ["compress", "f39", "out"]).cout.getLast? =
      some "Compression Ratio:  0.97:1" ∧
    fmtFixed 2 ((39 : ℚ) / 40) = "0.98" ∧
    ratioOf 39 40 ≠ (39 : ℚ) / 40 := by
  have hnum : ((39 : ℚ) / 40).num = 39 := by norm_num
  have hden : ((39 : ℚ) / 40).den = 40 := by norm_num
  have hsign : ¬ ((39 : ℚ) / 40 < 0) := by norm_num
  refine ⟨by decide, by decide, by decide, ?_, ?_⟩
  · simp only [fmtFixed, signChars, hnum, hden, hsign]
    decide
  · intro h
    have hd : (ratioOf 39 40).den = 9007199254740992 := by decide
    rw [h, hden] at hd
    exact absurd hd (by decide)

/-- C5, amended. Ratio definition and edge case: on a successful run of either
command the ratio printed on the last line is the binary64 quotient of the
original size by the compressed size (`fdiv`: the exact quotient rounded to
the nearest double) when the compressed size is positive and 1 otherwise; with
a compressed size of zero the line reads `1.00:1`, whatever the original
size. -/
theorem ratio_definition (codec : Codec) (t : ℚ) (fs : FileSystem) (prog inp out : String)
    (c : Bytes) (hin : fs.openIn inp = some c) (hout : fs.writable out = true) :
    ((compress_snappy.main codec t fs [prog, inp, out]).cout.getLast? =
        some ("Compression Ratio:  "
          ++ fmtFixed 2 (if 0 < (codec.Compress c).length
              then fdiv (c.length : ℚ) ((codec.Compress c).length : ℚ) else 1) ++ ":1") ∧
      ((codec.Compress c).length = 0 →
        (compress_snappy.main codec t fs [prog, inp, out]).cout.getLast? =
          some "Compression Ratio:  1.00:1")) ∧
    (∀ d, codec.Uncompress c = some d →
      (decompress_snappy.main codec t fs [prog, inp, out]).cout.getLast? =
        some ("Compression Ratio:  "
          ++ fmtFixed 2 (if 0 < c.length then fdiv (d.length : ℚ) (c.length : ℚ) else 1)
          ++ ":1") ∧
      (c.length = 0 →
        (decompress_snappy.main codec t fs [prog, inp, out]).cout.getLast? =
          some "Compression Ratio:  1.00:1")) := by
  have hc := (compress_success codec t fs prog inp out c hin hout).2.2.2
  refine ⟨?_, ?_⟩
  · rw [hc]
    simp only [ratioOf_natCast, List.getLast?_cons_cons, List.getLast?_singleton]
    refine ⟨trivial, ?_⟩
    intro h0
    rw [h0, if_neg (Nat.lt_irrefl 0), fmtFixed_two_one]
    rfl
  · intro d hacc
    rw [(decompress_success codec t fs prog inp out c d hin hacc hout).2.2.2]
    simp only [ratioOf_natCast, List.getLast?_cons_cons, List.getLast?_singleton]
    refine ⟨trivial, ?_⟩
    intro h0
    rw [h0, if_neg (Nat.lt_irrefl 0), fmtFixed_two_one]
    rfl

theorem ratio_definition_witness :
    (compress_snappy.main tagCodec 0 demoFS ["compress", "in", "out"]).cout.getLast? =
        some "Compression Ratio:  0.75:1" ∧
    (decompress_snappy.main tagCodec 0 oddFS ["decompress", "enc", "out"]).cout.getLast? =
        some "Compression Ratio:  0.75:1" ∧
    (compress_snappy.main nullCodec 0 demoFS ["compress", "in", "out"]).cout.getLast? =
        some "Compression Ratio:  1.00:1" ∧
    (decompress_snappy.main nullCodec 0 demoFS ["decompress", "empty", "out"]).cout.getLast? =
        some "Compression Ratio:  1.00:1" :=
  ⟨(ratio_definition tagCodec 0 demoFS "compress" "in" "out" [1, 2, 3]
      (by decide) (by decide)).1.1.trans (by decide),
   ((ratio_definition tagCodec 0 oddFS "decompress" "enc" "out" [7, 1, 2, 3]
      (by decide) (by decide)).2 [1, 2, 3] (by decide)).1.trans (by decide),
   (ratio_definition nullCodec 0 demoFS "compress" "in" "out" [1, 2, 3]
      (by decide) (by decide)).1.2 (by decide),
   ((ratio_definition nullCodec 0 demoFS "decompress" "empty" "out" []
      (by decide) (by decide)).2 [] (by decide)).2 (by decide)⟩

/-- C6, counterexample. The device behind `out` is full: the destination
opens, none of the three bytes of the output buffer is written, and the
compress command still returns 0, writes nothing to the error stream and
prints the success report. -/
theorem short_write_goes_unnoticed :
    fullFS.writable "out" = true ∧
    Event.writeOutput "out" 3 false
      ∈ (compress_snappy.main storeCodec 0 fullFS ["compress", "in", "out"]).trace ∧
    (compress_snappy.main storeCodec 0 fullFS ["compress", "in", "out"]).fs.content "out"
      = some [] ∧
    (compress_snappy.main storeCodec 0 fullFS ["compress", "in", "out"]).exitCode = 0 ∧
    (compress_snappy.main storeCodec 0 fullFS ["compress", "in", "out"]).cerr = [] ∧
    (compress_snappy.main storeCodec 0 fullFS ["compress", "in", "out"]).cout.head?
      = some "Successfully compressed in" := by
  decide

/-- C6, amended. After a successful transform, a destination that cannot be
opened makes either command fail: exit code 1, the diagnostic naming the
output path on the error stream, no success report, file system unchanged.
A destination that opens leads to exit code 0 and the success report whatever
the device does with the write: its completeness is not checked. -/
theorem output_open_failure_is_error (codec : Codec) (t : ℚ) (fs : FileSystem)
    (prog inp out : String) (c : Bytes) (hin : fs.openIn inp = some c) :
    (fs.writable out = false →
      (compress_snappy.main codec t fs [prog, inp, out]).exitCode = 1 ∧
      (compress_snappy.main codec t fs [prog, inp, out]).cerr
        = ["Error: Cannot open output file: " ++ out] ∧
      (compress_snappy.main codec t fs [prog, inp, out]).cout = [] ∧
      (compress_snappy.main codec t fs [prog, inp, out]).fs = fs) ∧
    (∀ d, codec.Uncompress c = some d → fs.writable out = false →
      (decompress_snappy.main codec t fs [prog, inp, out]).exitCode = 1 ∧
      (decompress_snappy.main codec t fs [prog, inp, out]).cerr
        = ["Error: Cannot open output file: " ++ out] ∧
      (decompress_snappy.main codec t fs [prog, inp, out]).cout = [] ∧
      (decompress_snappy.main codec t fs [prog, inp, out]).fs = fs) ∧
    (fs.writable out = true →
      (compress_snappy.main codec t fs [prog, inp, out]).exitCode = 0 ∧
      (compress_snappy.main codec t fs [prog, inp, out]).cerr = [] ∧
      (compress_snappy.main codec t fs [prog, inp, out]).cout.head?
        = some ("Successfully compressed " ++ inp)) ∧
    (∀ d, codec.Uncompress c = some d → fs.writable out = true →
      (decompress_snappy.main codec t fs [prog, inp, out]).exitCode = 0 ∧
      (decompress_snappy.main codec t fs [prog, inp, out]).cerr = [] ∧
      (decompress_snappy.main codec t fs [prog, inp, out]).cout.head?
        = some ("Successfully decompressed " ++ inp)) := by
  refine ⟨?_, ?_, ?_, ?_⟩
  · intro hw
    simp [compress_snappy.main, hin, openOut_of_locked fs out hw]
  · intro d hacc hw
    simp [decompress_snappy.main, hin, hacc, openOut_of_locked fs out hw]
  · intro hw
    have h := compress_success codec t fs prog inp out c hin hw
    refine ⟨h.1, h.2.1, ?_⟩
    rw [h.2.2.2]
    rfl
  · intro d hacc hw
    have h := decompress_success codec t fs prog inp out c d hin hacc hw
    refine ⟨h.1, h.2.1, ?_⟩
    rw [h.2.2.2]
    rfl

theorem output_open_failure_is_error_witness :
    (compress_snappy.main tagCodec 0 lockedFS ["compress", "in", "out"]).exitCode = 1 ∧
    (compress_snappy.main tagCodec 0 lockedFS ["compress", "in", "out"]).cerr
      = ["Error: Cannot open output file: " ++ "out"] ∧
    (compress_snappy.main tagCodec 0 lockedFS ["compress", "in", "out"]).cout = [] ∧
    (compress_snappy.main tagCodec 0 lockedFS ["compress", "in", "out"]).fs = lockedFS :=
  (output_open_failure_is_error tagCodec 0 lockedFS "compress" "in" "out" [1, 2, 3]
    (by decide)).1 (by decide)

/-- C7. Size roles: on a successful run the compress command prints the length
of the input content as original size and the length of the codec output as
compressed size; the decompress command prints the length of the input content
as compressed size and the length of the decoded output as original size. In
both, the ratio printed is the quotient of the uncompressed length by the
encoded length (1 when the encoded length is zero). -/
theorem size_roles (codec : Codec) (t : ℚ) (fs : FileSystem) (prog inp out : String)
    (c : Bytes) (hin : fs.openIn inp = some c) (hout : fs.writable out = true) :
    (compress_snappy.main codec t fs [prog, inp, out]).cout =
      ["Successfully compressed " ++ inp,
       "Original Size:    " ++ fmtGeneral 6 (c.length : ℚ) ++ " bytes",
       "Compressed Size:  " ++ fmtGeneral 6 ((codec.Compress c).length : ℚ) ++ " bytes",
       "Time Taken:         " ++ fmtFixed 6 t ++ " s",
       "Compression Ratio:  "
         ++ fmtFixed 2 (if 0 < (codec.Compress c).length
              then fdiv (c.length : ℚ) ((codec.Compress c).length : ℚ) else 1) ++ ":1"] ∧
    (∀ d, codec.Uncompress c = some d →
      (decompress_snappy.main codec t fs [prog, inp, out]).cout =
        ["Successfully decompressed " ++ inp,
         "Compressed Size:  " ++ fmtGeneral 6 (c.length : ℚ) ++ " bytes",
         "Original Size:    " ++ fmtGeneral 6 (d.length : ℚ) ++ " bytes",
         "Time Taken:         " ++ fmtFixed 6 t ++ " s",
         "Compression Ratio:  "
           ++ fmtFixed 2 (if 0 < c.length then fdiv (d.length : ℚ) (c.length : ℚ) else 1)
           ++ ":1"]) := by
  refine ⟨?_, ?_⟩
  · rw [(compress_success codec t fs prog inp out c hin hout).2.2.2, ratioOf_natCast]
  · intro d hacc
    rw [(decompress_success codec t fs prog inp out c d hin hacc hout).2.2.2, ratioOf_natCast]

theorem size_roles_witness :
    (compress_snappy.main tagCodec 0 demoFS ["compress", "in", "out"]).cout =
      ["Successfully compressed in",
       "Original Size:    3 bytes",
       "Compressed Size:  4 bytes",
       "Time Taken:         0.000000 s",
       "Compression Ratio:  0.75:1"] ∧
    (decompress_snappy.main tagCodec 0 demoFS ["decompress", "enc", "out"]).cout =
      ["Successfully decompressed enc",
       "Compressed Size:  4 bytes",
       "Original Size:    3 bytes",
       "Time Taken:         0.000000 s",
       "Compression Ratio:  0.75:1"] :=
  ⟨(size_roles tagCodec 0 demoFS "compress" "in" "out" [1, 2, 3]
      (by decide) (by decide)).1.trans (by decide),
   ((size_roles tagCodec 0 demoFS "decompress" "enc" "out" [7, 1, 2, 3]
      (by decide) (by decide)).2 [1, 2, 3] (by decide)).trans (by decide)⟩

theorem millionZeros_length : millionZeros.length = 1000000 := by
  unfold millionZeros
  exact List.length_replicate _ _

theorem bigFS_openIn : bigFS.openIn "in" = some millionZeros := by
  simp [bigFS, demoFS, FileSystem.openIn]

theorem fmtGeneral_million : fmtGeneral 6 ((1000000 : ℕ) : ℚ) = "1e+06" := by decide

theorem fmtGeneral_below_million : fmtGeneral 6 ((999999 : ℕ) : ℚ) = "999999" := by decide

theorem fmtGeneral_above_million :
    fmtGeneral 6 ((1234567 : ℕ) : ℚ) = "1.23457e+06" := by decide

theorem fmtFixed_six_zero : fmtFixed 6 0 = "0.000000" := by decide

/-- C8, failing input. For a file of 1000000 bytes the compress command prints
both sizes as `1e+06`: the size lines are written before `std::fixed` is set,
in the default format with six significant digits. -/
theorem million_bytes_report :
    (compress_snappy.main storeCodec 0 bigFS ["compress", "in", "out"]).cout =
      ["Successfully compressed in",
       "Original Size:    1e+06 bytes",
       "Compressed Size:  1e+06 bytes",
       "Time Taken:         0.000000 s",
       "Compression Ratio:  1.00:1"] := by
  have hr : ratioOf ((1000000 : ℕ) : ℚ) ((1000000 : ℕ) : ℚ) = 1 := by decide
  rw [(compress_success storeCodec 0 bigFS "compress" "in" "out" millionZeros bigFS_openIn
    rfl).2.2.2]
  simp only [storeCodec, millionZeros_length, fmtGeneral_million, fmtFixed_six_zero, hr,
    fmtFixed_two_one]
  rfl

/-- C9, counterexample. The input `in` opens and the output `out` opens, but
the device takes two of the four bytes of the output buffer: the compress
command returns 0 and `out` holds a truncated encoding. -/
theorem short_write_truncates_output :
    tightFS.openIn "in" = some [1, 2, 3] ∧
    tightFS.writable "out" = true ∧
    (compress_snappy.main tagCodec 0 tightFS ["compress", "in", "out"]).exitCode = 0 ∧
    (compress_snappy.main tagCodec 0 tightFS ["compress", "in", "out"]).fs.content "out"
      = some [7, 1] ∧
    (compress_snappy.main tagCodec 0 tightFS ["compress", "in", "out"]).fs.content "out"
      ≠ some (tagCodec.Compress [1, 2, 3]) := by
  decide

/-- C9, amended. Success postcondition and frame: when the input opens with
content `c` and the output opens, the output path afterwards holds the part of
the output buffer the device took, which is all of `codec.Compress c` when the
write is not cut short, and nothing else in the file system has changed. The
input and output paths may be the same. The same holds for the decompress
command with the decoded data when the codec accepts `c`. -/
theorem success_postcondition_frame (codec : Codec) (t : ℚ) (fs : FileSystem)
    (prog inp out : String) (c : Bytes)
    (hin : fs.openIn inp = some c) (hout : fs.writable out = true) :
    ((compress_snappy.main codec t fs [prog, inp, out]).exitCode = 0 ∧
     (compress_snappy.main codec t fs [prog, inp, out]).fs.content out
       = some ((codec.Compress c).take (fs.room out)) ∧
     ((codec.Compress c).length ≤ fs.room out →
       (compress_snappy.main codec t fs [prog, inp, out]).fs.content out
         = some (codec.Compress c)) ∧
     (∀ p, p ≠ out →
       (compress_snappy.main codec t fs [prog, inp, out]).fs.content p = fs.content p) ∧
     (compress_snappy.main codec t fs [prog, inp, out]).fs.readable = fs.readable ∧
     (compress_snappy.main codec t fs [prog, inp, out]).fs.writable = fs.writable ∧
     (compress_snappy.main codec t fs [prog, inp, out]).fs.room = fs.room) ∧
    (∀ d, codec.Uncompress c = some d →
     (decompress_snappy.main codec t fs [prog, inp, out]).exitCode = 0 ∧
     (decompress_snappy.main codec t fs [prog, inp, out]).fs.content out
       = some (d.take (fs.room out)) ∧
     (d.length ≤ fs.room out →
       (decompress_snappy.main codec t fs [prog, inp, out]).fs.content out = some d) ∧
     (∀ p, p ≠ out →
       (decompress_snappy.main codec t fs [prog, inp, out]).fs.content p = fs.content p) ∧
     (decompress_snappy.main codec t fs [prog, inp, out]).fs.readable = fs.readable ∧
     (decompress_snappy.main codec t fs [prog, inp, out]).fs.writable = fs.writable ∧
     (decompress_snappy.main codec t fs [prog, inp, out]).fs.room = fs.room) := by
  refine ⟨?_, ?_⟩
  · have h := compress_success codec t fs prog inp out c hin hout
    rw [h.2.2.1]
    refine ⟨h.1, ?_, ?_, ?_, rfl, rfl, rfl⟩
    · simp [FileSystem.write, FileSystem.store]
    · intro hfit
      simp [FileSystem.write, FileSystem.store, List.take_of_length_le hfit]
    · intro p hp
      simp [FileSystem.write, FileSystem.store, hp]
  · intro d hacc
    have h := decompress_success codec t fs prog inp out c d hin hacc hout
    rw [h.2.2.1]
    refine ⟨h.1, ?_, ?_, ?_, rfl, rfl, rfl⟩
    · simp [FileSystem.write, FileSystem.store]
    · intro hfit
      simp [FileSystem.write, FileSystem.store, List.take_of_length_le hfit]
    · intro p hp
      simp [FileSystem.write, FileSystem.store, hp]

theorem success_postcondition_frame_witness :
    (compress_snappy.main tagCodec 0 demoFS ["compress", "in", "in"]).fs.content "in"
      = some (tagCodec.Compress [1, 2, 3]) ∧
    (decompress_snappy.main tagCodec 0 demoFS ["decompress", "enc", "enc"]).fs.content "enc"
      = some [1, 2, 3] ∧
    (decompress_snappy.main tagCodec 0 demoFS ["decompress", "enc", "enc"]).fs.content "in"
      = demoFS.content "in" :=
  ⟨(success_postcondition_frame tagCodec 0 demoFS "compress" "in" "in" [1, 2, 3]
      (by decide) (by decide)).1.2.2.1 (by decide),
   ((success_postcondition_frame tagCodec 0 demoFS "decompress" "enc" "enc" [7, 1, 2, 3]
      (by decide) (by decide)).2 [1, 2, 3] (by decide)).2.2.1 (by decide),
   ((success_postcondition_frame tagCodec 0 demoFS "decompress" "enc" "enc" [7, 1, 2, 3]
      (by decide) (by decide)).2 [1, 2, 3] (by decide)).2.2.2.1 "in" (by decide)⟩

theorem exists_pair_iff (P : String → String → Prop) (inp out : String) :
    (∃ i o, [inp, out] = [i, o] ∧ P i o) ↔ P inp out := by
  constructor
  · rintro ⟨i, o, h, hp⟩
    simp only [List.cons.injEq, and_true] at h
    obtain ⟨rfl, rfl⟩ := h
    exact hp
  · intro h
    exact ⟨inp, out, rfl, h⟩

/-- C10. Exit code characterisation: every run of either command returns 0 or
1. The compress command returns 0 exactly when it has two positional
arguments, the input opens and the output opens; the decompress command
returns 0 exactly when, in addition, the codec accepts the input content. A
run that returns 1 prints nothing on standard output and exactly one line on
the error stream. -/
theorem exit_code_characterisation (codec : Codec) (t : ℚ) (fs : FileSystem)
    (prog : String) (args : List String) :
    (((compress_snappy.main codec t fs (prog :: args)).exitCode = 0 ∨
      (compress_snappy.main codec t fs (prog :: args)).exitCode = 1) ∧
     ((compress_snappy.main codec t fs (prog :: args)).exitCode = 0 ↔
        (prog :: args).length = 3 ∧
        ∃ inp out, args = [inp, out] ∧ (∃ c, fs.openIn inp = some c) ∧
          fs.writable out = true) ∧
     ((compress_snappy.main codec t fs (prog :: args)).exitCode = 1 →
        (compress_snappy.main codec t fs (prog :: args)).cout = [] ∧
        (compress_snappy.main codec t fs (prog :: args)).cerr.length = 1)) ∧
    (((decompress_snappy.main codec t fs (prog :: args)).exitCode = 0 ∨
      (decompress_snappy.main codec t fs (prog :: args)).exitCode = 1) ∧
     ((decompress_snappy.main codec t fs (prog :: args)).exitCode = 0 ↔
        (prog :: args).length = 3 ∧
        ∃ inp out, args = [inp, out] ∧
          (∃ c, fs.openIn inp = some c ∧ ∃ d, codec.Uncompress c = some d) ∧
          fs.writable out = true) ∧
     ((decompress_snappy.main codec t fs (prog :: args)).exitCode = 1 →
        (decompress_snappy.main codec t fs (prog :: args)).cout = [] ∧
        (decompress_snappy.main codec t fs (prog :: args)).cerr.length = 1)) := by
  by_cases hlen : args.length = 2
  · obtain ⟨inp, out, rfl⟩ := List.length_eq_two.mp hlen
    rw [exists_pair_iff (fun i o => (∃ c, fs.openIn i = some c) ∧ fs.writable o = true),
      exists_pair_iff (fun i o => (∃ c, fs.openIn i = some c ∧ ∃ d, codec.Uncompress c = some d)
        ∧ fs.writable o = true)]
    cases hin : fs.openIn inp with
    | none => simp [compress_snappy.main, decompress_snappy.main, hin]
    | some c =>
      cases hw : fs.writable out with
      | false =>
        cases hacc : codec.Uncompress c <;>
          simp [compress_snappy.main, decompress_snappy.main, hin, hacc, hw,
            openOut_of_locked fs out hw]
      | true =>
        cases hacc : codec.Uncompress c <;>
          simp [compress_snappy.main, decompress_snappy.main, hin, hacc, hw,
            openOut_of_writable fs out hw]
  · have h3 : ¬ (args.length + 1 = 3) := by omega
    have hne : ∀ inp out : String, args ≠ [inp, out] := by
      intro inp out h
      apply hlen
      rw [h]
      rfl
    simp [compress_snappy.main, decompress_snappy.main, h3, hlen, hne]

end Snappy
